import Mathlib

/-!
Verification of the snowpack dev-server core (`src/dev/command.ts`).

Strings are modelled as `List Char` (`Str`).  JavaScript `Map` objects are
modelled as association lists with `Map.get/set/delete/has` semantics.
The file system and the Babel compiler are modelled as explicit function
parameters, so the request handler, the watch callback and the tsc output
parser become pure state-transition functions that can be evaluated on
concrete inputs.
-/

set_option maxHeartbeats 1000000

/-- JavaScript strings are modelled as lists of characters. -/
abbrev Str := List Char

/-- Build a `Str` from a Lean string literal. -/
def str (s : String) : Str := s.data

/-- JS `Map` modelled as an association list keyed by `Str`. -/
abbrev SMap (α : Type) := List (Str × α)

/-- `Map.prototype.has`. -/
def mhas {α : Type} : SMap α → Str → Bool
  | [], _ => false
  | p :: m, k => if p.1 = k then true else mhas m k

/-- `Map.prototype.get` (`none` when the key is absent). -/
def mget {α : Type} : SMap α → Str → Option α
  | [], _ => none
  | p :: m, k => if p.1 = k then some p.2 else mget m k

/-- `Map.prototype.delete`. -/
def mdelete {α : Type} : SMap α → Str → SMap α
  | [], _ => []
  | p :: m, k => if p.1 = k then mdelete m k else p :: mdelete m k

/-- `Map.prototype.set`: update in place when the key exists, append otherwise. -/
def mset {α : Type} (m : SMap α) (k : Str) (v : α) : SMap α :=
  if mhas m k then m.map (fun p => if p.1 = k then (k, v) else p) else m ++ [(k, v)]

/-- JS `String.prototype.replace` with a plain-string pattern: replace the
first occurrence only. -/
def replaceFirstL (pat rep : Str) : Str → Str
  | [] => if pat.isPrefixOf ([] : Str) then rep else []
  | c :: rest =>
    if pat.isPrefixOf (c :: rest) then rep ++ (c :: rest).drop pat.length
    else c :: replaceFirstL pat rep rest

/-- JS `String.prototype.includes`. -/
def containsSubstr : Str → Str → Bool
  | [], pat => pat.isPrefixOf ([] : Str)
  | c :: rest, pat => pat.isPrefixOf (c :: rest) || containsSubstr rest pat

/-- Number of (greedy, non-overlapping) occurrences of `pat` in a string. -/
def countOccurL (pat : Str) : Str → Nat
  | [] => 0
  | c :: rest =>
    if pat ≠ [] ∧ pat.isPrefixOf (c :: rest) = true then
      1 + countOccurL pat ((c :: rest).drop pat.length)
    else
      countOccurL pat rest
termination_by l => l.length
decreasing_by
  · rename_i h
    simp only [List.length_drop]
    have hpat : 0 < pat.length := List.length_pos.mpr h.1
    exact Nat.sub_lt (by simp) hpat
  · simp

/-- Node `path.join` for already-normalized segments (no `..`, no duplicate
separators inside each segment): drop a trailing slash of the left segment,
ensure a single slash before the right segment. -/
def pathJoin (a b : Str) : Str :=
  let a2 := if a.getLast? = some '/' then a.dropLast else a
  let b2 := if b.head? = some '/' then b else '/' :: b
  a2 ++ b2

/-- The basename: characters after the last `/`. -/
def lastComponent (p : Str) : Str :=
  (p.reverse.takeWhile (fun c => c ≠ '/')).reverse

/-- Node `path.parse(p).ext`: the suffix of the basename from its last `.`,
empty when the basename has no dot or only a leading dot. -/
def extname (p : Str) : Str :=
  let base := lastComponent p
  let afterDotRev := base.reverse.takeWhile (fun c => c ≠ '.')
  if afterDotRev.length = base.length then []
  else
    let i := base.length - afterDotRev.length - 1
    if i = 0 then [] else base.drop i

/-- JS `String.prototype.toLowerCase` (ASCII-faithful, which covers every
extension string the server compares against). -/
def toLowerStr (s : Str) : Str := s.map Char.toLower

/-- JS `String.prototype.trimStart` (ASCII whitespace). -/
def trimStartStr (s : Str) : Str := s.dropWhile Char.isWhitespace

/-- Split on newline characters (the line structure `/^.../m` tests against). -/
def splitLines : Str → List Str
  | [] => [[]]
  | c :: rest =>
    let r := splitLines rest
    if c = '\n' then [] :: r
    else
      match r with
      | [] => [[c]]
      | l :: ls => (c :: l) :: ls

/-- Decimal value of a digit string (JS `parseInt` on a `\d+` match). -/
def natOfDigits (ds : Str) : Nat :=
  ds.foldl (fun n c => 10 * n + (c.toNat - '0'.toNat)) 0

/-! ## Data model -/

/-- Events emitted on the `messageBus` (plus the live-reload push messages). -/
inductive Ev where
  | babelStart (file : Str)
  | babelFinish (file : Str)
  | babelError (file : Str)
  | newSession
  | serverResponse (status : Nat)
  | reload (client : Nat)
  | tscReset
  | tscMsg (msg : Str)
  | tscDone
  | tscErrorCount (n : Nat)
deriving DecidableEq

/-- Result of `babel.transformAsync`: a thrown error, or a result object whose
`code` field may be absent (`null`) or empty. -/
inductive BabelOutcome where
  | err (e : Str)
  | ok (code : Option Str)

/-- The pluggable compiler (`babel.transformAsync` with the loaded config). -/
abbrev Compiler := Str → Str → BabelOutcome

/-- The file-system boundary: `stat` returns `some isFile` when the path
exists (`none` when `fs.stat` rejects), `readFile` returns the contents or
`none` when the read fails. -/
structure FileSystem where
  stat : Str → Option Bool
  readFile : Str → Option Str

/-- The `DevOptions` record passed to `command`. -/
structure DevOptions where
  cwd : Str
  publicDir : Str
  fallback : Str
  paths : List (Str × Option Str)

/-- The mutable server state: `FILE_CACHE`, `babelFileErrors` and
`liveReloadClients` (clients modelled by numeric ids). -/
structure ServerState where
  fileCache : SMap Str
  babelFileErrors : SMap Str
  liveReloadClients : List Nat
deriving DecidableEq

/-- The outcome of one HTTP request. -/
inductive Response where
  | file (body : Str) (ext : Str)
  | err (status : Nat)
  | liveReloadStream
deriving DecidableEq

/-! ## Embedding of `src/dev/command.ts` -/

/-- The live-reload client snippet appended to fallback-routed documents
(`LIVE_RELOAD_SNIPPET`, command.ts lines 41-49). -/
def LIVE_RELOAD_SNIPPET : Str :=
  str "\n  <script>\n    const source = new EventSource(\x27/livereload\x27);\n    const reload = () => location.reload(true);\n    source.onmessage = reload;\n    source.onerror = () => (source.onopen = reload);\n    console.log(\x27[snowpack] listening for file changes\x27);\n  </script>\n"

/-- `getEncodingType` (command.ts lines 51-57). -/
def getEncodingType (ext : Str) : Str :=
  if ext = str ".js" ∨ ext = str ".css" ∨ ext = str ".html" then str "utf8" else str "binary"

/-- JS `decodeURI`, modelled as the identity: the request paths considered
here contain no percent-escapes, on which `decodeURI` is the identity. -/
def decodeURI (s : Str) : Str := s

/-- Effect of one matching source-root mapping (the body of the `for` loop at
command.ts lines 259-267): recompute the candidate file under `cwd` and, if a
rewrite target is configured (and is a non-empty string, since `if (pathEnd)`
is falsy on the empty string), replace the first occurrence of the prefix. -/
def applyMapping (cwd resource : Str) (m : Str × Option Str) : Str :=
  let rf := pathJoin cwd resource
  match m.2 with
  | some pathEnd => if pathEnd = [] then rf else replaceFirstL m.1 pathEnd rf
  | none => rf

/-- The `for (const [pathStart, pathEnd] of paths)` loop (command.ts lines
253-267), including the initial candidate `path.join(publicDir, resource)`.
Returns the final `requestedFile` and the `isSrc` flag. -/
def computeMapping (opts : DevOptions) (reqPath resource : Str) : Str × Bool :=
  opts.paths.foldl
    (fun acc m =>
      if m.1.isPrefixOf reqPath then (applyMapping opts.cwd resource m, true) else acc)
    (pathJoin opts.publicDir resource, false)

/-- `fs.stat(f).then(() => f).catch(() => null)`: succeed on any existing
entry (no `isFile` check in the probing chains). -/
def statProbe (fsys : FileSystem) (f : Str) : Option Str :=
  match fsys.stat f with
  | some _ => some f
  | none => none

/-- `requestedFile.replace(/\.js$/, ext2)`. -/
def replaceJsSuffix (requestedFile ext2 : Str) : Str :=
  if (str ".js").isSuffixOf requestedFile then
    requestedFile.take (requestedFile.length - 3) ++ ext2
  else requestedFile

/-- The alternate source-extension probe for `isSrc` requests (command.ts
lines 278-293): first existing of `.ts`, `.jsx`, `.tsx` siblings. -/
def srcProbe (fsys : FileSystem) (requestedFile : Str) : Option Str :=
  match statProbe fsys (replaceJsSuffix requestedFile (str ".ts")) with
  | some f => some f
  | none =>
    match statProbe fsys (replaceJsSuffix requestedFile (str ".jsx")) with
    | some f => some f
    | none => statProbe fsys (replaceJsSuffix requestedFile (str ".tsx"))

/-- The extensionless/route probe (command.ts lines 294-311): `<path>.html`,
`<path>/index.html`, `<path>index.html`, then the fallback document under the
public root (the only probe that insists on a regular file). -/
def routeProbe (fsys : FileSystem) (publicDir fallback requestedFile : Str) : Option Str :=
  match statProbe fsys (requestedFile ++ str ".html") with
  | some f => some f
  | none =>
    match statProbe fsys (requestedFile ++ str "/index.html") with
    | some f => some f
    | none =>
      match statProbe fsys (requestedFile ++ str "index.html") with
      | some f => some f
      | none =>
        match fsys.stat (pathJoin publicDir fallback) with
        | some true => some (pathJoin publicDir fallback)
        | _ => none

/-- File resolution (command.ts lines 273-319): direct stat, then the
source-extension probe when `isSrc`, then the route probe when the request
has no extension (which forces the extension to `.html` and sets `isRoute`).
Returns `(fileLoc?, servedExt, isRoute)`. -/
def resolveFile (fsys : FileSystem) (publicDir fallback requestedFile requestedFileExt : Str)
    (isSrc : Bool) : Option Str × Str × Bool :=
  let fileLoc1 : Option Str :=
    match fsys.stat requestedFile with
    | some true => some requestedFile
    | _ => none
  let fileLoc2 : Option Str :=
    if fileLoc1 = none ∧ isSrc = true then srcProbe fsys requestedFile else fileLoc1
  if fileLoc2 = none ∧ requestedFileExt = [] then
    match routeProbe fsys publicDir fallback requestedFile with
    | some loc => (some loc, str ".html", true)
    | none => (none, requestedFileExt, false)
  else (fileLoc2, requestedFileExt, false)

/-- `buildBabelFile` (command.ts lines 130-145): emit `BABEL_START`, run the
compiler; on success delete the pending failure and emit `BABEL_FINISH`, on
a thrown error record it and emit `BABEL_ERROR`.  Returns the result, the
updated `babelFileErrors` map and the emitted events. -/
def buildBabelFile (compile : Compiler) (errs : SMap Str) (fileLoc fileContents : Str) :
    Except Str (Option Str) × SMap Str × List Ev :=
  match compile fileLoc fileContents with
  | .ok code => (.ok code, mdelete errs fileLoc, [Ev.babelStart fileLoc, Ev.babelFinish fileLoc])
  | .err e => (.error e, mset errs fileLoc e, [Ev.babelStart fileLoc, Ev.babelError fileLoc])

/-- The transform-and-cache tail of request handling (command.ts lines
336-346): transform `.js` files outside `web_modules` (500 when Babel
throws or yields no code), then write the served bytes to `FILE_CACHE`
under `fileLoc` and respond.  `fileContents2` are the (possibly
route-augmented) contents and `evs1` the events emitted before this point.
A non-200 status emits a `SERVER_RESPONSE` event (the `finish` listener,
command.ts lines 227-238). -/
def serveContents (compile : Compiler) (st : ServerState) (fileLoc ext : Str)
    (fileContents2 : Str) (evs1 : List Ev) : Response × ServerState × List Ev :=
  if ext = str ".js" ∧ containsSubstr fileLoc (str "/web_modules/") = false then
    match buildBabelFile compile st.babelFileErrors fileLoc fileContents2 with
    | (.error _, errs2, evs2) =>
      (.err 500, { st with babelFileErrors := errs2 }, evs1 ++ evs2 ++ [Ev.serverResponse 500])
    | (.ok none, errs2, evs2) =>
      (.err 500, { st with babelFileErrors := errs2 }, evs1 ++ evs2 ++ [Ev.serverResponse 500])
    | (.ok (some code), errs2, evs2) =>
      if code = [] then
        (.err 500, { st with babelFileErrors := errs2 }, evs1 ++ evs2 ++ [Ev.serverResponse 500])
      else
        (.file code ext,
         { st with babelFileErrors := errs2, fileCache := mset st.fileCache fileLoc code },
         evs1 ++ evs2)
  else
    (.file fileContents2 ext,
     { st with fileCache := mset st.fileCache fileLoc fileContents2 },
     evs1)

/-- Serving a resolved file (command.ts lines 321-346): read (500 on
failure), 404 on empty contents, append the live-reload snippet and emit
`NEW_SESSION` on routes, then hand to `serveContents`. -/
def serveResolved (compile : Compiler) (fsys : FileSystem) (st : ServerState)
    (fileLoc ext : Str) (isRoute : Bool) : Response × ServerState × List Ev :=
  match fsys.readFile fileLoc with
  | none => (.err 500, st, [Ev.serverResponse 500])
  | some fileContents =>
    if fileContents = [] then (.err 404, st, [Ev.serverResponse 404])
    else
      serveContents compile st fileLoc ext
        (if isRoute then fileContents ++ LIVE_RELOAD_SNIPPET else fileContents)
        (if isRoute then [Ev.newSession] else [])

/-- The per-request handler (the `http.createServer` callback, command.ts
lines 222-347): live-reload registration, source-root mapping, the
`FILE_CACHE` lookup keyed by `requestedFile`, resolution, then
`serveResolved`. -/
def handleRequest (opts : DevOptions) (fsys : FileSystem) (compile : Compiler)
    (st : ServerState) (reqPath : Str) (clientId : Nat) : Response × ServerState × List Ev :=
  if reqPath = str "/livereload" then
    (.liveReloadStream, { st with liveReloadClients := st.liveReloadClients ++ [clientId] }, [])
  else
    match computeMapping opts reqPath (decodeURI reqPath) with
    | (requestedFile, isSrc) =>
      if mhas st.fileCache requestedFile then
        (.file ((mget st.fileCache requestedFile).getD [])
          (toLowerStr (extname (decodeURI reqPath))), st, [])
      else
        match resolveFile fsys opts.publicDir opts.fallback requestedFile
            (toLowerStr (extname (decodeURI reqPath))) isSrc with
        | (none, _, _) => (.err 404, st, [Ev.serverResponse 404])
        | (some fileLoc, ext2, isRoute) => serveResolved compile fsys st fileLoc ext2 isRoute

/-- `/\.(js|ts|jsx|tsx)$/` rewritten to `.js` (command.ts line 353). -/
def replaceSrcSuffix (p : Str) : Str :=
  if (str ".js").isSuffixOf p then p.take (p.length - 3) ++ str ".js"
  else if (str ".ts").isSuffixOf p then p.take (p.length - 3) ++ str ".js"
  else if (str ".jsx").isSuffixOf p then p.take (p.length - 4) ++ str ".js"
  else if (str ".tsx").isSuffixOf p then p.take (p.length - 4) ++ str ".js"
  else p

/-- The pending-failure retry tail of `onWatchEvent` (command.ts lines
359-366): when `babelFileErrors` records the changed file, re-read it,
clearing the failure when the read fails or the contents are falsy,
otherwise re-run `buildBabelFile`.  `st1` is the state after cache deletion
and client drain, `reloadEvs` the reload messages already sent. -/
def onWatchRetry (fsys : FileSystem) (compile : Compiler) (st1 : ServerState)
    (fileLoc : Str) (reloadEvs : List Ev) : ServerState × List Ev :=
  if mhas st1.babelFileErrors fileLoc then
    match fsys.readFile fileLoc with
    | none => ({ st1 with babelFileErrors := mdelete st1.babelFileErrors fileLoc }, reloadEvs)
    | some fileContents =>
      if fileContents = [] then
        ({ st1 with babelFileErrors := mdelete st1.babelFileErrors fileLoc }, reloadEvs)
      else
        match buildBabelFile compile st1.babelFileErrors fileLoc fileContents with
        | (_, errs2, evs2) => ({ st1 with babelFileErrors := errs2 }, reloadEvs ++ evs2)
  else (st1, reloadEvs)

/-- `onWatchEvent` (command.ts lines 350-367): compute the cache key (source
extensions rewritten to `.js` for paths under `cwd`), delete it from
`FILE_CACHE`, drain the live-reload clients with one reload message each
(popped from the end, so in reverse order), then retry a pending Babel
failure via `onWatchRetry`. -/
def onWatchEvent (opts : DevOptions) (fsys : FileSystem) (compile : Compiler)
    (st : ServerState) (event fileLoc : Str) : ServerState × List Ev :=
  onWatchRetry fsys compile
    { st with
      fileCache := mdelete st.fileCache
        (if opts.cwd.isPrefixOf fileLoc then replaceSrcSuffix fileLoc else fileLoc),
      liveReloadClients := [] }
    fileLoc
    (st.liveReloadClients.reverse.map Ev.reload)

/-! ### The tsc watcher (command.ts lines 175-202) -/

/-- The terminal clear-screen sequence: both `'\u001bc'` and `'\x1Bc'` in the
source denote this same two-character string ESC `c`. -/
def TSC_CLEAR : Str := str "\x1bc"

/-- `/^\[/gm.test`: some line begins with `[`. -/
def anyLineStartsBracket (s : Str) : Bool :=
  (splitLines s).any (fun l => l.head? = some '[')

/-- `/Watching for file changes./gm.test`: the literal phrase followed by one
more character (the regex `.`), which must not be a line terminator. -/
def containsDotPat (pre : Str) : Str → Bool
  | [] => false
  | c :: rest =>
    (pre.isPrefixOf (c :: rest) &&
      match (c :: rest).drop pre.length with
      | d :: _ => !(d = '\n' || d = '\r')
      | [] => false)
    || containsDotPat pre rest

/-- `tscOutput.match(/Found (\d+) errors/)`: first position where `Found `
is followed by one or more digits and then ` errors`; returns the parsed
count. -/
def findFoundErrors : Str → Option Nat
  | [] => none
  | c :: rest =>
    if (str "Found ").isPrefixOf (c :: rest) then
      let after := (c :: rest).drop 6
      let ds := after.takeWhile Char.isDigit
      let rest2 := after.dropWhile Char.isDigit
      if ds ≠ [] ∧ (str " errors").isPrefixOf rest2 = true then some (natOfDigits ds)
      else findFoundErrors rest
    else findFoundErrors rest

/-- The stripping step of the chunk handler: remove the first occurrence of
the clear sequence (twice — the `\x1Bc` and `\u001bc` regexes in the source
are the same pattern) and trim leading whitespace. -/
def tscStripped (chunk : Str) : Str :=
  trimStartStr (replaceFirstL TSC_CLEAR [] (replaceFirstL TSC_CLEAR [] chunk))

/-- The `stdout.on('data')` chunk handler (command.ts lines 181-202):
`TSC_RESET` when the chunk begins with the clear sequence; emit the
stripped text as `TSC_MSG`; and only when some line of the stripped output
begins with `[`, emit `TSC_DONE` for the watching phrase and `TSC_ERROR`
with the parsed count for the found-errors pattern. -/
def handleTscChunk (chunk : Str) : List Ev :=
  (if TSC_CLEAR.isPrefixOf chunk then [Ev.tscReset] else [])
    ++ [Ev.tscMsg (tscStripped chunk)]
    ++ (if anyLineStartsBracket (tscStripped chunk) then
          (if containsDotPat (str "Watching for file changes") (tscStripped chunk) then
            [Ev.tscDone]
          else [])
            ++ (match findFoundErrors (tscStripped chunk) with
                | some n => [Ev.tscErrorCount n]
                | none => [])
        else [])

/-! ### The file watcher (command.ts lines 59-73) -/

/-- A directory tree on disk; entries pair a name with a node. -/
inductive FsNode where
  | file
  | dir (entries : List (Str × FsNode))

/-- The Linux branch of `watch` (command.ts lines 64-72; on other platforms
the code delegates to the platform's native recursive `fs.watch`): skip paths
ending in `node_modules`; attach a single non-recursive watch when the path
is a directory; otherwise call `readdirSync` on it, which throws on a
non-directory (`Except.error`).  Returns the list of watched paths. -/
def watch (fileLoc : Str) (node : FsNode) : Except Unit (List Str) :=
  if (str "node_modules").isSuffixOf fileLoc then Except.ok []
  else
    match node with
    | .dir _ => Except.ok [fileLoc]
    | .file => Except.error ()

/-! ### Spec-side definition for the extensionless resolution order -/

/-- The resolution order for extensionless requests as the spec states it
(spec section 4.1 step 5): probe `<path>.html`, `<path>/index.html`,
`<path>index.html`, then the fallback document under the public root; a hit
forces extension `.html` and `isRoute = true`; otherwise `NotFound`.  Written
from the spec's words, to be compared with `resolveFile`. -/
def specNoExtResolve (fsys : FileSystem) (publicDir fallback requestedFile : Str) :
    Option Str × Str × Bool :=
  if (fsys.stat (requestedFile ++ str ".html")).isSome then
    (some (requestedFile ++ str ".html"), str ".html", true)
  else if (fsys.stat (requestedFile ++ str "/index.html")).isSome then
    (some (requestedFile ++ str "/index.html"), str ".html", true)
  else if (fsys.stat (requestedFile ++ str "index.html")).isSome then
    (some (requestedFile ++ str "index.html"), str ".html", true)
  else if fsys.stat (pathJoin publicDir fallback) = some true then
    (some (pathJoin publicDir fallback), str ".html", true)
  else (none, [], false)

/-- Whether `babelErr || !babelResult.code` holds for a compiler outcome
(command.ts line 339): a thrown error, a `null` code, or an empty code. -/
def babelFailed : BabelOutcome → Bool
  | .err _ => true
  | .ok none => true
  | .ok (some code) => code == []

/-- Reload push messages among a list of events. -/
def isReloadEv : Ev → Bool
  | .reload _ => true
  | _ => false

/-! ## Helper lemmas -/

theorem mget_map_self (m : SMap Str) (k v : Str) :
    mhas m k = true → mget (m.map (fun p => if p.1 = k then (k, v) else p)) k = some v := by
  induction m with
  | nil => intro h; simp [mhas] at h
  | cons p m ih =>
    intro h
    by_cases hp : p.1 = k
    · simp only [List.map_cons, if_pos hp, mget]
      simp
    · rw [mhas, if_neg hp] at h
      simp only [List.map_cons, if_neg hp, mget]
      exact ih h

theorem mget_append_single (m : SMap Str) (k v : Str) :
    mhas m k = false → mget (m ++ [(k, v)]) k = some v := by
  induction m with
  | nil => intro _; simp [mget]
  | cons p m ih =>
    intro h
    rw [mhas] at h
    by_cases hp : p.1 = k
    · rw [if_pos hp] at h; exact absurd h (by simp)
    · rw [if_neg hp] at h
      rw [List.cons_append, mget, if_neg hp]
      exact ih h

theorem mget_mset_self (m : SMap Str) (k v : Str) : mget (mset m k v) k = some v := by
  unfold mset
  by_cases h : mhas m k = true
  · rw [if_pos h]; exact mget_map_self m k v h
  · rw [if_neg h]
    exact mget_append_single m k v (by simpa using h)

theorem mhas_map_ne (m : SMap Str) (k k' v : Str) (hne : k' ≠ k) :
    mhas (m.map (fun p => if p.1 = k then (k, v) else p)) k' = mhas m k' := by
  induction m with
  | nil => rfl
  | cons p m ih =>
    by_cases hp : p.1 = k
    · simp only [List.map_cons, if_pos hp, mhas]
      rw [if_neg (fun hc => hne hc.symm), if_neg (fun hc => hne (hp.symm.trans hc).symm)]
      exact ih
    · simp only [List.map_cons, if_neg hp, mhas]
      by_cases hk : p.1 = k' <;> simp [hk, ih]

theorem mhas_append_single_ne (m : SMap Str) (k k' v : Str) (hne : k' ≠ k) :
    mhas (m ++ [(k, v)]) k' = mhas m k' := by
  induction m with
  | nil => simp [mhas, Ne.symm hne]
  | cons p m ih =>
    simp only [List.cons_append, mhas]
    by_cases hk : p.1 = k' <;> simp [hk, ih]

theorem mhas_mset_ne (m : SMap Str) (k k' v : Str) (hne : k' ≠ k) :
    mhas (mset m k v) k' = mhas m k' := by
  unfold mset
  by_cases h : mhas m k = true
  · rw [if_pos h]; exact mhas_map_ne m k k' v hne
  · rw [if_neg h]; exact mhas_append_single_ne m k k' v hne

theorem mget_mdelete_self (m : SMap Str) (k : Str) : mget (mdelete m k) k = none := by
  induction m with
  | nil => rfl
  | cons p m ih =>
    by_cases hp : p.1 = k
    · rw [mdelete, if_pos hp]; exact ih
    · rw [mdelete, if_neg hp, mget, if_neg hp]; exact ih

theorem mhas_of_mget_some (m : SMap Str) (k v : Str) :
    mget m k = some v → mhas m k = true := by
  induction m with
  | nil => intro h; simp [mget] at h
  | cons p m ih =>
    intro h
    by_cases hp : p.1 = k
    · rw [mhas, if_pos hp]
    · rw [mget, if_neg hp] at h
      rw [mhas, if_neg hp]
      exact ih h

theorem countOccurL_nil (pat : Str) : countOccurL pat [] = 0 := by
  rw [countOccurL]

theorem countOccurL_cons (pat : Str) (c : Char) (rest : Str) :
    countOccurL pat (c :: rest) =
      if pat ≠ [] ∧ pat.isPrefixOf (c :: rest) = true then
        1 + countOccurL pat ((c :: rest).drop pat.length)
      else countOccurL pat rest := by
  rw [countOccurL]

theorem countOccurL_eq_zero_of_lt (pat : Str) :
    ∀ l : Str, l.length < pat.length → countOccurL pat l = 0 := by
  intro l
  induction l with
  | nil => intro _; exact countOccurL_nil pat
  | cons c rest ih =>
    intro hlen
    rw [countOccurL_cons, if_neg]
    · exact ih (by simp only [List.length_cons] at hlen; omega)
    · rintro ⟨-, hp⟩
      have := (List.isPrefixOf_iff_prefix.mp hp).length_le
      simp only [List.length_cons] at hlen this
      omega

theorem countOccurL_self (pat : Str) (hpat : pat ≠ []) : countOccurL pat pat = 1 := by
  obtain ⟨a, as, h⟩ := List.exists_cons_of_ne_nil hpat
  rw [h] at hpat ⊢
  rw [countOccurL_cons,
    if_pos ⟨hpat, List.isPrefixOf_iff_prefix.mpr (List.prefix_refl _)⟩,
    List.drop_length, countOccurL_nil]

theorem countOccurL_append_self (pat : Str) (hpat : pat ≠ []) :
    ∀ c : Str, countOccurL pat c = 0 → countOccurL pat (c ++ pat) = 1 := by
  intro c
  induction c with
  | nil => intro _; simpa using countOccurL_self pat hpat
  | cons ch rest ih =>
    intro h0
    rw [countOccurL_cons] at h0
    by_cases hp : pat.isPrefixOf (ch :: rest) = true
    · rw [if_pos ⟨hpat, hp⟩] at h0; omega
    · rw [if_neg (fun h => hp h.2)] at h0
      have hnotpre : ¬ pat <+: (ch :: rest) := fun h => hp (List.isPrefixOf_iff_prefix.mpr h)
      rw [List.cons_append, countOccurL_cons]
      by_cases hp2 : pat.isPrefixOf (ch :: (rest ++ pat)) = true
      · rw [if_pos ⟨hpat, hp2⟩]
        have hpre2 : pat <+: ((ch :: rest) ++ pat) := by
          rw [List.cons_append]; exact List.isPrefixOf_iff_prefix.mp hp2
        have hlen : (ch :: rest).length < pat.length := by
          by_contra hle
          push_neg at hle
          apply hnotpre
          have htake : pat = ((ch :: rest) ++ pat).take pat.length :=
            List.prefix_iff_eq_take.mp hpre2
          rw [List.take_append_eq_append_take, Nat.sub_eq_zero_of_le hle, List.take_zero,
            List.append_nil] at htake
          rw [htake]
          exact List.take_prefix _ _
        have hdrop : (ch :: (rest ++ pat)).drop pat.length =
            pat.drop (pat.length - (ch :: rest).length) := by
          rw [← List.cons_append, List.drop_append_eq_append_drop,
            List.drop_eq_nil_of_le (le_of_lt hlen), List.nil_append]
        rw [hdrop]
        have hz : countOccurL pat (pat.drop (pat.length - (ch :: rest).length)) = 0 := by
          apply countOccurL_eq_zero_of_lt
          simp only [List.length_drop, List.length_cons]
          simp only [List.length_cons] at hlen
          omega
        rw [hz]
      · rw [if_neg (fun h => hp2 h.2)]
        exact ih h0

theorem append_ne_self (a b : Str) (hb : b ≠ []) : a ++ b ≠ a := by
  intro h
  have := congrArg List.length h
  simp only [List.length_append] at this
  exact hb (List.length_eq_zero.mp (by omega))

theorem routeProbe_eq_some (fsys : FileSystem) (pd fb rf loc : Str)
    (h : routeProbe fsys pd fb rf = some loc) :
    loc = rf ++ str ".html" ∨ loc = rf ++ str "/index.html" ∨ loc = rf ++ str "index.html" ∨
      (loc = pathJoin pd fb ∧ fsys.stat loc = some true) := by
  unfold routeProbe statProbe at h
  cases h1 : fsys.stat (rf ++ str ".html") with
  | some b => simp [h1] at h; exact Or.inl h.symm
  | none =>
    rw [h1] at h
    cases h2 : fsys.stat (rf ++ str "/index.html") with
    | some b => simp [h2] at h; exact Or.inr (Or.inl h.symm)
    | none =>
      rw [h2] at h
      cases h3 : fsys.stat (rf ++ str "index.html") with
      | some b => simp [h3] at h; exact Or.inr (Or.inr (Or.inl h.symm))
      | none =>
        rw [h3] at h
        cases h4 : fsys.stat (pathJoin pd fb) with
        | none => simp [h4] at h
        | some b =>
          cases b with
          | false => simp [h4] at h
          | true =>
            simp only [h4, Option.some.injEq] at h
            exact Or.inr (Or.inr (Or.inr ⟨h.symm, h ▸ h4⟩))

theorem buildBabelFile_reload_free (compile : Compiler) (errs : SMap Str)
    (fileLoc contents : Str) :
    ∀ e ∈ (buildBabelFile compile errs fileLoc contents).2.2, isReloadEv e = false := by
  unfold buildBabelFile
  cases compile fileLoc contents <;> simp [isReloadEv]

theorem serveContents_reload_free (compile : Compiler) (st : ServerState)
    (fileLoc ext contents2 : Str) (evs1 : List Ev)
    (h1 : ∀ e ∈ evs1, isReloadEv e = false) :
    ∀ e ∈ (serveContents compile st fileLoc ext contents2 evs1).2.2, isReloadEv e = false := by
  unfold serveContents
  have hb := buildBabelFile_reload_free compile st.babelFileErrors fileLoc contents2
  split
  · rcases hbb : buildBabelFile compile st.babelFileErrors fileLoc contents2 with ⟨res, errs2, evs2⟩
    rw [hbb] at hb
    simp only at hb
    have hmem : ∀ e ∈ evs1 ++ evs2 ++ [Ev.serverResponse 500], isReloadEv e = false := by
      intro e he
      simp only [List.mem_append, List.mem_cons, List.not_mem_nil, or_false] at he
      rcases he with (he | he) | he
      · exact h1 e he
      · exact hb e he
      · subst he; rfl
    cases res with
    | error e0 => dsimp only; exact hmem
    | ok code =>
      cases code with
      | none => dsimp only; exact hmem
      | some c =>
        dsimp only
        by_cases hcz : c = []
        · rw [if_pos hcz]; exact hmem
        · rw [if_neg hcz]
          intro e he
          simp only [List.mem_append] at he
          rcases he with he | he
          · exact h1 e he
          · exact hb e he
  · exact h1

theorem serveResolved_reload_free (compile : Compiler) (fsys : FileSystem) (st : ServerState)
    (fileLoc ext : Str) (isRoute : Bool) :
    ∀ e ∈ (serveResolved compile fsys st fileLoc ext isRoute).2.2, isReloadEv e = false := by
  unfold serveResolved
  split
  · simp [isReloadEv]
  · split
    · simp [isReloadEv]
    · apply serveContents_reload_free
      cases isRoute <;> simp [isReloadEv]

theorem handleRequest_reload_free (opts : DevOptions) (fsys : FileSystem) (compile : Compiler)
    (st : ServerState) (reqPath : Str) (clientId : Nat) :
    ∀ e ∈ (handleRequest opts fsys compile st reqPath clientId).2.2, isReloadEv e = false := by
  unfold handleRequest
  split
  · simp
  · split
    · split
      · simp
      · split
        · simp [isReloadEv]
        · exact serveResolved_reload_free compile fsys st _ _ _

theorem filter_reload_map (l : List Nat) :
    (l.map Ev.reload).filter isReloadEv = l.map Ev.reload := by
  induction l with
  | nil => rfl
  | cons c rest ih => simp [isReloadEv, ih]

theorem filter_reload_of_free (l : List Ev) (h : ∀ e ∈ l, isReloadEv e = false) :
    l.filter isReloadEv = [] := by
  induction l with
  | nil => rfl
  | cons e rest ih =>
    have he := h e (by simp)
    simp only [List.filter_cons, he]
    exact ih (fun e' he' => h e' (by simp [he']))

theorem onWatchRetry_shape (fsys : FileSystem) (compile : Compiler) (st1 : ServerState)
    (fileLoc : Str) (reloadEvs : List Ev)
    (hre : reloadEvs.filter isReloadEv = reloadEvs) :
    (onWatchRetry fsys compile st1 fileLoc reloadEvs).1.liveReloadClients =
        st1.liveReloadClients ∧
      (onWatchRetry fsys compile st1 fileLoc reloadEvs).2.filter isReloadEv = reloadEvs := by
  unfold onWatchRetry
  split
  · split
    · exact ⟨rfl, hre⟩
    · rename_i fileContents _
      split
      · exact ⟨rfl, hre⟩
      · have hb := buildBabelFile_reload_free compile st1.babelFileErrors fileLoc fileContents
        rcases hbb : buildBabelFile compile st1.babelFileErrors fileLoc fileContents
          with ⟨res, errs2, evs2⟩
        rw [hbb] at hb
        simp only at hb
        dsimp only
        refine ⟨rfl, ?_⟩
        rw [List.filter_append, hre, filter_reload_of_free _ hb, List.append_nil]
  · exact ⟨rfl, hre⟩

theorem onWatchEvent_shape (opts : DevOptions) (fsys : FileSystem) (compile : Compiler)
    (st : ServerState) (event fileLoc : Str) :
    (onWatchEvent opts fsys compile st event fileLoc).1.liveReloadClients = [] ∧
      (onWatchEvent opts fsys compile st event fileLoc).2.filter isReloadEv =
        st.liveReloadClients.reverse.map Ev.reload := by
  unfold onWatchEvent
  exact onWatchRetry_shape fsys compile _ fileLoc _ (filter_reload_map _)

/-! ## Claim theorems -/

/-- C3: for every request path and every ordered mapping list, the mapping
loop recomputes the candidate file for each mapping whose prefix matches,
without short-circuiting, so the last matching mapping alone determines the
candidate (and `isSrc` is set exactly when some mapping matched). -/
theorem c3_last_mapping_wins (opts : DevOptions) (reqPath resource : Str) :
    computeMapping opts reqPath resource =
      match (opts.paths.filter (fun m => m.1.isPrefixOf reqPath)).getLast? with
      | none => (pathJoin opts.publicDir resource, false)
      | some m => (applyMapping opts.cwd resource m, true) := by
  obtain ⟨cw, pd, fb, ps⟩ := opts
  simp only [computeMapping]
  induction ps using List.reverseRecOn with
  | nil => simp
  | append_singleton l x ih =>
    rw [List.foldl_append, List.filter_append]
    simp only [List.foldl_cons, List.foldl_nil]
    by_cases hx : x.1.isPrefixOf reqPath = true
    · rw [if_pos hx]
      simp [hx, List.getLast?_concat]
    · rw [if_neg hx]
      simp only [List.filter_cons, hx, Bool.false_eq_true, if_false, List.filter_nil,
        List.append_nil]
      exact ih

/-- C6: one watch event sends exactly one reload message to each connected
client (drained from the end of the registration list) and leaves the
client set empty; a subsequent watch event, or any request, produces no
further reload messages. -/
theorem c6_live_reload_drain (opts : DevOptions) (fsys : FileSystem) (compile : Compiler)
    (st : ServerState) (event fileLoc : Str) :
    (onWatchEvent opts fsys compile st event fileLoc).2.filter isReloadEv =
        st.liveReloadClients.reverse.map Ev.reload ∧
      (onWatchEvent opts fsys compile st event fileLoc).1.liveReloadClients = [] ∧
      (onWatchEvent opts fsys compile
          (onWatchEvent opts fsys compile st event fileLoc).1 event fileLoc).2.filter
          isReloadEv = [] ∧
      ∀ (reqPath : Str) (clientId : Nat),
        (handleRequest opts fsys compile (onWatchEvent opts fsys compile st event fileLoc).1
            reqPath clientId).2.2.filter isReloadEv = [] := by
  obtain ⟨h1, h2⟩ := onWatchEvent_shape opts fsys compile st event fileLoc
  refine ⟨h2, h1, ?_, ?_⟩
  · obtain ⟨h3, h4⟩ := onWatchEvent_shape opts fsys compile
      (onWatchEvent opts fsys compile st event fileLoc).1 event fileLoc
    rw [h4, h1]
    rfl
  · intro reqPath clientId
    exact filter_reload_of_free _
      (handleRequest_reload_free opts fsys compile _ reqPath clientId)

/-- C7 (code bug): on the Linux emulation path, `watch` on a root directory
attaches one single non-recursive watch on the root and never enumerates
the tree (the subdirectory `/app/sub` receives no watch), while on a
non-directory it throws, because the directory/non-directory branches are
inverted relative to the documented recursive enumeration. -/
theorem c7_watch_not_recursive :
    watch (str "/app") (FsNode.dir [(str "sub", FsNode.dir [(str "a.txt", FsNode.file)])]) =
        Except.ok [str "/app"] ∧
      (str "/app/sub") ∉ [str "/app"] ∧
      watch (str "/app/a.txt") FsNode.file = Except.error () := by
  exact ⟨rfl, by decide, rfl⟩

/-! Fixtures for the spec's concrete scenario (C1). -/

def exOpts1 : DevOptions :=
  { cwd := str "/work", publicDir := str "/work/public", fallback := str "index.html",
    paths := [(str "/components/", some (str "/src/components/"))] }

def exTsxPath : Str := str "/work/src/components/app.tsx"

def exFs1 : FileSystem :=
  { stat := fun p => if p = exTsxPath then some true else none,
    readFile := fun p => if p = exTsxPath then some (str "export default null;") else none }

def exCompile1 : Compiler := fun _ _ => .ok (some (str "out-code"))

/-- C1 (code bug): in the spec's concrete scenario the first request for
`/components/app.js` resolves to `src/components/app.tsx`, transforms and
serves it, but the cache entry is written under the resolved path
(`.../app.tsx`) while lookups use the requested candidate (`.../app.js`),
so the repeat request misses the cache and re-invokes Babel. -/
theorem c1_repeat_request_misses_cache :
    (handleRequest exOpts1 exFs1 exCompile1 ⟨[], [], []⟩ (str "/components/app.js") 0).1 =
        Response.file (str "out-code") (str ".js") ∧
      Ev.babelStart exTsxPath ∈
        (handleRequest exOpts1 exFs1 exCompile1 ⟨[], [], []⟩ (str "/components/app.js") 0).2.2 ∧
      mhas (handleRequest exOpts1 exFs1 exCompile1 ⟨[], [], []⟩
            (str "/components/app.js") 0).2.1.fileCache
          (str "/work/src/components/app.js") = false ∧
      Ev.babelStart exTsxPath ∈
        (handleRequest exOpts1 exFs1 exCompile1
            (handleRequest exOpts1 exFs1 exCompile1 ⟨[], [], []⟩
              (str "/components/app.js") 0).2.1
            (str "/components/app.js") 0).2.2 := by
  decide

/-- C10: a request that resolves to an existing file whose read succeeds but
yields empty contents is answered 404 (not 200 with an empty body), and the
server state — in particular the content cache — is unchanged. -/
theorem c10_empty_file_404 (opts : DevOptions) (fsys : FileSystem) (compile : Compiler)
    (st : ServerState) (reqPath : Str) (clientId : Nat)
    (requestedFile : Str) (isSrc : Bool) (fileLoc ext2 : Str) (isRoute : Bool)
    (hlr : reqPath ≠ str "/livereload")
    (hmap : computeMapping opts reqPath (decodeURI reqPath) = (requestedFile, isSrc))
    (hcache : mhas st.fileCache requestedFile = false)
    (hres : resolveFile fsys opts.publicDir opts.fallback requestedFile
        (toLowerStr (extname (decodeURI reqPath))) isSrc = (some fileLoc, ext2, isRoute))
    (hread : fsys.readFile fileLoc = some []) :
    handleRequest opts fsys compile st reqPath clientId =
      (.err 404, st, [Ev.serverResponse 404]) := by
  unfold handleRequest
  rw [if_neg hlr, hmap]
  dsimp only
  simp only [hcache, Bool.false_eq_true, if_false]
  rw [hres]
  dsimp only
  unfold serveResolved
  rw [hread]
  dsimp only
  rw [if_pos rfl]

def exOpts10 : DevOptions :=
  { cwd := str "/w", publicDir := str "/p", fallback := str "index.html", paths := [] }

def exFs10 : FileSystem :=
  { stat := fun p => if p = str "/p/empty.txt" then some true else none,
    readFile := fun p => if p = str "/p/empty.txt" then some [] else none }

theorem c10_witness :
    exFs10.readFile (str "/p/empty.txt") = some [] ∧
      handleRequest exOpts10 exFs10 exCompile1 ⟨[], [], []⟩ (str "/empty.txt") 0 =
        (.err 404, ⟨[], [], []⟩, [Ev.serverResponse 404]) :=
  ⟨by decide,
    c10_empty_file_404 exOpts10 exFs10 exCompile1 ⟨[], [], []⟩ (str "/empty.txt") 0
      (str "/p/empty.txt") false (str "/p/empty.txt") (str ".txt") false
      (by decide) (by decide) (by decide) (by decide) (by decide)⟩

/-- C4: when the resolved file is transformed and the transform fails (the
compiler throws, or produces no output code), the response is 500 and the
content cache is left unchanged. -/
theorem c4_failed_transform_leaves_cache (opts : DevOptions) (fsys : FileSystem)
    (compile : Compiler) (st : ServerState) (reqPath : Str) (clientId : Nat)
    (requestedFile : Str) (isSrc : Bool) (fileLoc : Str) (isRoute : Bool) (contents : Str)
    (hlr : reqPath ≠ str "/livereload")
    (hmap : computeMapping opts reqPath (decodeURI reqPath) = (requestedFile, isSrc))
    (hcache : mhas st.fileCache requestedFile = false)
    (hres : resolveFile fsys opts.publicDir opts.fallback requestedFile
        (toLowerStr (extname (decodeURI reqPath))) isSrc = (some fileLoc, str ".js", isRoute))
    (hweb : containsSubstr fileLoc (str "/web_modules/") = false)
    (hread : fsys.readFile fileLoc = some contents)
    (hne : contents ≠ [])
    (hfail : babelFailed (compile fileLoc
        (if isRoute then contents ++ LIVE_RELOAD_SNIPPET else contents)) = true) :
    (handleRequest opts fsys compile st reqPath clientId).1 = .err 500 ∧
      (handleRequest opts fsys compile st reqPath clientId).2.1.fileCache = st.fileCache := by
  unfold handleRequest
  rw [if_neg hlr, hmap]
  dsimp only
  simp only [hcache, Bool.false_eq_true, if_false]
  rw [hres]
  dsimp only
  unfold serveResolved
  rw [hread]
  dsimp only
  rw [if_neg hne]
  unfold serveContents
  rw [if_pos ⟨rfl, hweb⟩]
  unfold buildBabelFile
  rcases hc : compile fileLoc (if isRoute then contents ++ LIVE_RELOAD_SNIPPET else contents)
    with e | code
  · dsimp only
    exact ⟨rfl, rfl⟩
  · rw [hc] at hfail
    cases code with
    | none => dsimp only; exact ⟨rfl, rfl⟩
    | some c =>
      dsimp only
      have hcz : c = [] := by simpa [babelFailed] using hfail
      rw [if_pos hcz]
      exact ⟨rfl, rfl⟩

def exCompileFail : Compiler := fun _ _ => .err (str "SyntaxError")

theorem c4_witness :
    babelFailed (exCompileFail exTsxPath (str "export default null;")) = true ∧
      ((handleRequest exOpts1 exFs1 exCompileFail ⟨[], [], []⟩
            (str "/components/app.js") 0).1 = .err 500 ∧
        (handleRequest exOpts1 exFs1 exCompileFail ⟨[], [], []⟩
            (str "/components/app.js") 0).2.1.fileCache =
          (⟨[], [], []⟩ : ServerState).fileCache) :=
  ⟨by decide,
    c4_failed_transform_leaves_cache exOpts1 exFs1 exCompileFail ⟨[], [], []⟩
      (str "/components/app.js") 0 (str "/work/src/components/app.js") true exTsxPath false
      (str "export default null;")
      (by decide) (by decide) (by decide) (by decide) (by decide) (by decide) (by decide)
      (by decide)⟩

theorem babelStart_not_mem_reload (l : List Nat) (f : Str) :
    Ev.babelStart f ∉ l.map Ev.reload := by
  induction l with
  | nil => simp
  | cons c rest ih => simp [ih]

/-! Fixtures for the pending-failure claims (C5). -/

def exErrPath : Str := str "/work/broken.ts"

def exSt5 : ServerState := ⟨[], [(exErrPath, str "SyntaxError")], []⟩

def exFs5 : FileSystem := { stat := fun _ => none, readFile := fun _ => some [] }

/-- C5 counterexample: a pending-failure file that is perfectly readable but
currently empty.  The claim says the transformer is re-invoked on the
current contents whenever the file can still be read; the code instead
treats the empty (falsy) contents like a failed read, clears the pending
failure and performs no retry (no `BABEL_START` is emitted). -/
theorem c5_counterexample :
    exFs5.readFile exErrPath = some [] ∧
      (onWatchEvent exOpts1 exFs5 exCompile1 exSt5 (str "change") exErrPath).1.babelFileErrors
          = [] ∧
      Ev.babelStart exErrPath ∉
        (onWatchEvent exOpts1 exFs5 exCompile1 exSt5 (str "change") exErrPath).2 := by
  decide

/-- C5 (amended): on a watch event for a file with a recorded pending
failure — with no HTTP request involved, this is the watch callback alone —
if the file cannot be read, or reads as empty, the pending failure is
cleared and the transformer is not re-invoked; otherwise the transformer is
re-invoked on the current contents, and the pending failure is removed on
success and re-recorded with the triggering error on failure. -/
theorem c5_pending_failure_retry (opts : DevOptions) (fsys : FileSystem) (compile : Compiler)
    (st : ServerState) (event fileLoc : Str) (e0 : Str)
    (hp : mget st.babelFileErrors fileLoc = some e0) :
    (fsys.readFile fileLoc = none →
        (onWatchEvent opts fsys compile st event fileLoc).1.babelFileErrors =
            mdelete st.babelFileErrors fileLoc ∧
          Ev.babelStart fileLoc ∉ (onWatchEvent opts fsys compile st event fileLoc).2) ∧
      (fsys.readFile fileLoc = some [] →
        (onWatchEvent opts fsys compile st event fileLoc).1.babelFileErrors =
            mdelete st.babelFileErrors fileLoc ∧
          Ev.babelStart fileLoc ∉ (onWatchEvent opts fsys compile st event fileLoc).2) ∧
      ∀ contents : Str, fsys.readFile fileLoc = some contents → contents ≠ [] →
        Ev.babelStart fileLoc ∈ (onWatchEvent opts fsys compile st event fileLoc).2 ∧
          mget (onWatchEvent opts fsys compile st event fileLoc).1.babelFileErrors fileLoc =
            (match compile fileLoc contents with
             | .ok _ => none
             | .err e2 => some e2) := by
  have hhas : mhas st.babelFileErrors fileLoc = true := mhas_of_mget_some _ _ _ hp
  unfold onWatchEvent onWatchRetry
  dsimp only
  rw [if_pos hhas]
  refine ⟨?_, ?_, ?_⟩
  · intro hr
    rw [hr]
    exact ⟨rfl, babelStart_not_mem_reload _ _⟩
  · intro hr
    rw [hr]
    dsimp only
    rw [if_pos rfl]
    exact ⟨rfl, babelStart_not_mem_reload _ _⟩
  · intro contents hr hne
    rw [hr]
    dsimp only
    rw [if_neg hne]
    unfold buildBabelFile
    rcases hc : compile fileLoc contents with e2 | code
    · dsimp only
      refine ⟨by simp, ?_⟩
      exact mget_mset_self _ _ _
    · dsimp only
      refine ⟨by simp, ?_⟩
      exact mget_mdelete_self _ _

def exFs5b : FileSystem := { stat := fun _ => none, readFile := fun _ => some (str "let x") }

theorem c5_witness :
    mget exSt5.babelFileErrors exErrPath = some (str "SyntaxError") ∧
      (Ev.babelStart exErrPath ∈
          (onWatchEvent exOpts1 exFs5b exCompileFail exSt5 (str "change") exErrPath).2 ∧
        mget (onWatchEvent exOpts1 exFs5b exCompileFail exSt5 (str "change")
              exErrPath).1.babelFileErrors exErrPath =
          (match exCompileFail exErrPath (str "let x") with
           | .ok _ => none
           | .err e2 => some e2)) :=
  ⟨by decide,
    (c5_pending_failure_retry exOpts1 exFs5b exCompileFail exSt5 (str "change") exErrPath
        (str "SyntaxError") (by decide)).2.2 (str "let x") (by decide) (by decide)⟩

/-- C9 counterexample: a chunk consisting exactly of the watching-for-changes
phrase.  The claim says `DONE` is emitted whenever the chunk contains the
phrase; the code additionally requires some line of the (stripped) chunk to
begin with `[`, so no `TSC_DONE` is emitted here. -/
theorem c9_counterexample :
    containsDotPat (str "Watching for file changes")
        (tscStripped (str "Watching for file changes.")) = true ∧
      Ev.tscDone ∉ handleTscChunk (str "Watching for file changes.") := by
  decide

/-- C9 (amended): per-chunk events of the typecheck watcher: `RESET` exactly
when the chunk begins with the clear-screen sequence; the clear-stripped,
trimmed text is always forwarded as a `MESSAGE`; and — only when some line
of the stripped output begins with `[` — `DONE` exactly when the
watching-for-changes phrase occurs, and `ERROR_COUNT(N)` exactly when the
found-N-errors pattern matches with `N` parsed from the match. -/
theorem c9_tsc_chunk_events (chunk : Str) :
    (Ev.tscReset ∈ handleTscChunk chunk ↔ TSC_CLEAR.isPrefixOf chunk = true) ∧
      Ev.tscMsg (tscStripped chunk) ∈ handleTscChunk chunk ∧
      (Ev.tscDone ∈ handleTscChunk chunk ↔
        (anyLineStartsBracket (tscStripped chunk) = true ∧
          containsDotPat (str "Watching for file changes") (tscStripped chunk) = true)) ∧
      ∀ n : Nat, Ev.tscErrorCount n ∈ handleTscChunk chunk ↔
        (anyLineStartsBracket (tscStripped chunk) = true ∧
          findFoundErrors (tscStripped chunk) = some n) := by
  rcases h4 : findFoundErrors (tscStripped chunk) with _ | n0 <;>
    by_cases h1 : TSC_CLEAR.isPrefixOf chunk = true <;>
    by_cases h2 : anyLineStartsBracket (tscStripped chunk) = true <;>
    by_cases h3 : containsDotPat (str "Watching for file changes") (tscStripped chunk) = true <;>
    simp [handleTscChunk, h1, h2, h3, h4] <;>
    exact fun n => eq_comm

theorem routeProbe_spec (fsys : FileSystem) (pd fb rf : Str) :
    (match routeProbe fsys pd fb rf with
     | some loc => (some loc, str ".html", true)
     | none => ((none : Option Str), ([] : Str), false)) =
      specNoExtResolve fsys pd fb rf := by
  unfold routeProbe statProbe specNoExtResolve
  cases h1 : fsys.stat (rf ++ str ".html") with
  | some b => simp [h1]
  | none =>
    simp only [h1]
    cases h2 : fsys.stat (rf ++ str "/index.html") with
    | some b => simp [h2]
    | none =>
      simp only [h2]
      cases h3 : fsys.stat (rf ++ str "index.html") with
      | some b => simp [h3]
      | none =>
        simp only [h3]
        cases h4 : fsys.stat (pathJoin pd fb) with
        | none => simp [h4]
        | some b => cases b <;> simp [h4]

theorem resolveFile_route (fsys : FileSystem) (pd fb rf : Str) (isSrc : Bool) (fileLoc : Str)
    (hstat : fsys.stat rf ≠ some true)
    (hsrc : isSrc = true → srcProbe fsys rf = none)
    (hroute : routeProbe fsys pd fb rf = some fileLoc) :
    resolveFile fsys pd fb rf [] isSrc = (some fileLoc, str ".html", true) := by
  simp only [resolveFile]
  cases hstatv : fsys.stat rf with
  | some b =>
    cases b with
    | true => exact absurd hstatv hstat
    | false =>
      cases hs : isSrc with
      | false => simp [hstatv, hs, hroute]
      | true => simp [hstatv, hs, hsrc hs, hroute]
  | none =>
    cases hs : isSrc with
    | false => simp [hstatv, hs, hroute]
    | true => simp [hstatv, hs, hsrc hs, hroute]

theorem resolveFile_noroute (fsys : FileSystem) (pd fb rf : Str) (isSrc : Bool)
    (hstat : fsys.stat rf ≠ some true)
    (hsrc : isSrc = true → srcProbe fsys rf = none)
    (hroute : routeProbe fsys pd fb rf = none) :
    resolveFile fsys pd fb rf [] isSrc = (none, [], false) := by
  simp only [resolveFile]
  cases hstatv : fsys.stat rf with
  | some b =>
    cases b with
    | true => exact absurd hstatv hstat
    | false =>
      cases hs : isSrc with
      | false => simp [hstatv, hs, hroute]
      | true => simp [hstatv, hs, hsrc hs, hroute]
  | none =>
    cases hs : isSrc with
    | false => simp [hstatv, hs, hroute]
    | true => simp [hstatv, hs, hsrc hs, hroute]

def exFs2 : FileSystem :=
  { stat := fun p => if p = str "/w/d" then some false
                     else if p = str "/w/d/index.html" then some true else none,
    readFile := fun _ => none }

/-- C2 counterexample: for the extensionless candidate `/w/d` under a
matching source-root mapping (`isSrc = true`), where `/w/d` exists as a
directory (so there is no direct file hit) and `/w/d/index.html` exists,
the resolver does not probe the claimed `.html` candidates at all: the
source-extension probe (whose `\.js$` rewrite is a no-op here and whose
stat accepts the directory) returns the directory itself, with no `.html`
extension forced and `isRoute` not set. -/
theorem c2_counterexample :
    resolveFile exFs2 (str "/p") (str "index.html") (str "/w/d") [] true =
        (some (str "/w/d"), [], false) ∧
      (some (str "/w/d"), ([] : Str), false) ≠
        (some (str "/w/d/index.html"), str ".html", true) := by
  decide

/-- C2 (amended): for a request candidate with no file extension that has no
direct file hit and is not intercepted by the source-extension probe, the
resolver follows exactly the spec's probe order — `<path>.html`, then
`<path>/index.html`, then `<path>index.html`, then the fallback document
under the public root (`specNoExtResolve`, written from the spec's words);
any hit forces extension `.html` and sets `isRoute`; and when nothing
matches the handler answers 404. -/
theorem c2_noext_resolution (fsys : FileSystem) (publicDir fallback requestedFile : Str)
    (isSrc : Bool)
    (hstat : fsys.stat requestedFile ≠ some true)
    (hsrc : isSrc = true → srcProbe fsys requestedFile = none) :
    resolveFile fsys publicDir fallback requestedFile [] isSrc =
        specNoExtResolve fsys publicDir fallback requestedFile ∧
      (specNoExtResolve fsys publicDir fallback requestedFile = (none, [], false) →
        ∀ (opts : DevOptions) (compile : Compiler) (st : ServerState) (reqPath : Str)
          (clientId : Nat),
          opts.publicDir = publicDir → opts.fallback = fallback →
          reqPath ≠ str "/livereload" →
          computeMapping opts reqPath (decodeURI reqPath) = (requestedFile, isSrc) →
          toLowerStr (extname (decodeURI reqPath)) = [] →
          mhas st.fileCache requestedFile = false →
          handleRequest opts fsys compile st reqPath clientId =
            (.err 404, st, [Ev.serverResponse 404])) := by
  constructor
  · rcases hr : routeProbe fsys publicDir fallback requestedFile with _ | loc
    · rw [resolveFile_noroute fsys publicDir fallback requestedFile isSrc hstat hsrc hr,
        ← routeProbe_spec, hr]
    · rw [resolveFile_route fsys publicDir fallback requestedFile isSrc loc hstat hsrc hr,
        ← routeProbe_spec, hr]
  · intro hspec opts compile st reqPath clientId hpd hfb hlr hmap hext hcache
    have hroute : routeProbe fsys publicDir fallback requestedFile = none := by
      rcases hr : routeProbe fsys publicDir fallback requestedFile with _ | loc
      · rfl
      · exfalso
        rw [← routeProbe_spec, hr] at hspec
        simp at hspec
    unfold handleRequest
    rw [if_neg hlr, hmap]
    dsimp only
    simp only [hcache, Bool.false_eq_true, if_false]
    rw [hext, hpd, hfb,
      resolveFile_noroute fsys publicDir fallback requestedFile isSrc hstat hsrc hroute]

def exFs2b : FileSystem :=
  { stat := fun p => if p = str "/p2/dir/index.html" then some true else none,
    readFile := fun _ => none }

theorem c2_witness :
    exFs2b.stat (str "/p2/dir") ≠ some true ∧
      resolveFile exFs2b (str "/p2") (str "index.html") (str "/p2/dir") [] false =
        specNoExtResolve exFs2b (str "/p2") (str "index.html") (str "/p2/dir") :=
  ⟨by decide,
    (c2_noext_resolution exFs2b (str "/p2") (str "index.html") (str "/p2/dir") false
        (by decide) (fun h => absurd h (by decide))).1⟩

theorem routeLoc_ne (fsys : FileSystem) (pd fb rf loc : Str)
    (hroute : routeProbe fsys pd fb rf = some loc)
    (hstat : fsys.stat rf ≠ some true) : loc ≠ rf := by
  rcases routeProbe_eq_some fsys pd fb rf loc hroute with h | h | h | ⟨h, hs⟩
  · rw [h]; exact append_ne_self _ _ (by decide)
  · rw [h]; exact append_ne_self _ _ (by decide)
  · rw [h]; exact append_ne_self _ _ (by decide)
  · intro he
    rw [he] at hs
    exact hstat hs

/-- C8: serving a fallback-routed (`isRoute = true`) document twice with no
intervening file-system change yields byte-identical bodies — the file
contents with the live-reload snippet appended — the augmented bytes are
what gets cached (under the resolved path, before responding), and the body
contains exactly one copy of the snippet whenever the underlying file
contains none. -/
theorem c8_route_idempotent (opts : DevOptions) (fsys : FileSystem) (compile : Compiler)
    (st : ServerState) (reqPath : Str) (clientId : Nat)
    (requestedFile : Str) (isSrc : Bool) (fileLoc contents : Str)
    (hlr : reqPath ≠ str "/livereload")
    (hmap : computeMapping opts reqPath (decodeURI reqPath) = (requestedFile, isSrc))
    (hext : toLowerStr (extname (decodeURI reqPath)) = [])
    (hcache : mhas st.fileCache requestedFile = false)
    (hstat : fsys.stat requestedFile ≠ some true)
    (hsrc : isSrc = true → srcProbe fsys requestedFile = none)
    (hroute : routeProbe fsys opts.publicDir opts.fallback requestedFile = some fileLoc)
    (hread : fsys.readFile fileLoc = some contents)
    (hne : contents ≠ []) :
    (handleRequest opts fsys compile st reqPath clientId).1 =
        Response.file (contents ++ LIVE_RELOAD_SNIPPET) (str ".html") ∧
      (handleRequest opts fsys compile
          (handleRequest opts fsys compile st reqPath clientId).2.1 reqPath clientId).1 =
        (handleRequest opts fsys compile st reqPath clientId).1 ∧
      mget (handleRequest opts fsys compile st reqPath clientId).2.1.fileCache fileLoc =
        some (contents ++ LIVE_RELOAD_SNIPPET) ∧
      (countOccurL LIVE_RELOAD_SNIPPET contents = 0 →
        countOccurL LIVE_RELOAD_SNIPPET (contents ++ LIVE_RELOAD_SNIPPET) = 1) := by
  have hserve : ∀ st' : ServerState,
      serveResolved compile fsys st' fileLoc (str ".html") true =
        (Response.file (contents ++ LIVE_RELOAD_SNIPPET) (str ".html"),
         { st' with fileCache := mset st'.fileCache fileLoc (contents ++ LIVE_RELOAD_SNIPPET) },
         [Ev.newSession]) := by
    intro st'
    unfold serveResolved
    rw [hread]
    dsimp only
    rw [if_neg hne]
    unfold serveContents
    rw [if_neg (fun h => absurd h.1 (by decide))]
    simp
  have hreq : ∀ st' : ServerState, mhas st'.fileCache requestedFile = false →
      handleRequest opts fsys compile st' reqPath clientId =
        (Response.file (contents ++ LIVE_RELOAD_SNIPPET) (str ".html"),
         { st' with fileCache := mset st'.fileCache fileLoc (contents ++ LIVE_RELOAD_SNIPPET) },
         [Ev.newSession]) := by
    intro st' hc'
    unfold handleRequest
    rw [if_neg hlr, hmap]
    dsimp only
    simp only [hc', Bool.false_eq_true, if_false]
    rw [hext, resolveFile_route fsys opts.publicDir opts.fallback requestedFile isSrc fileLoc
      hstat hsrc hroute]
    dsimp only
    exact hserve st'
  have hne2 : requestedFile ≠ fileLoc := fun h =>
    (routeLoc_ne fsys opts.publicDir opts.fallback requestedFile fileLoc hroute hstat) h.symm
  have h1 := hreq st hcache
  have hcache2 : mhas (mset st.fileCache fileLoc (contents ++ LIVE_RELOAD_SNIPPET))
      requestedFile = false := by
    rw [mhas_mset_ne st.fileCache fileLoc requestedFile _ hne2]
    exact hcache
  refine ⟨?_, ?_, ?_, ?_⟩
  · rw [h1]
  · rw [h1]
    dsimp only
    rw [hreq _ hcache2]
  · rw [h1]
    dsimp only
    exact mget_mset_self _ _ _
  · intro h0
    exact countOccurL_append_self LIVE_RELOAD_SNIPPET (by decide) contents h0

def exOpts8 : DevOptions :=
  { cwd := str "/w8", publicDir := str "/p8", fallback := str "index.html", paths := [] }

def exFs8 : FileSystem :=
  { stat := fun p => if p = str "/p8/about/index.html" then some true else none,
    readFile := fun p =>
      if p = str "/p8/about/index.html" then some (str "<h1>hi</h1>") else none }

theorem c8_witness :
    exFs8.readFile (str "/p8/about/index.html") = some (str "<h1>hi</h1>") ∧
      (handleRequest exOpts8 exFs8 exCompile1 ⟨[], [], []⟩ (str "/about") 0).1 =
        Response.file (str "<h1>hi</h1>" ++ LIVE_RELOAD_SNIPPET) (str ".html") :=
  ⟨by decide,
    (c8_route_idempotent exOpts8 exFs8 exCompile1 ⟨[], [], []⟩ (str "/about") 0
        (str "/p8/about") false (str "/p8/about/index.html") (str "<h1>hi</h1>")
        (by decide) (by decide) (by decide) (by decide) (by decide)
        (fun h => absurd h (by decide)) (by decide) (by decide) (by decide)).1⟩
